import Mathlib

/-!
Shallow embedding of the part-selection, material-synchronization and
freehand-drawing pipeline of the sneaker customizer
(src/app/components/FastSneakerCustomizer.tsx and
src/app/components/DrawingTool.tsx), with theorems settling the
specification claims about it.

Modelling conventions:
* JavaScript numbers are rationals; a division that would produce NaN in
  JavaScript is modelled by an Option result (none = not finite).
* A nullable / possibly-undefined object field is an Option.
* JavaScript string falsiness (the empty string) is tested explicitly.
* A material is a value; a "write" to a material during a synchronization
  pass is recorded in an explicit write log, so that "which nodes were
  touched" is observable.
-/

namespace Sneaker

/-- A material, as mutated by the customizer: base color, emissive color and
emissive intensity (FastSneakerCustomizer.tsx, material sync effect). -/
structure Material where
  color : String
  emissive : String
  emissiveIntensity : ℚ
  deriving DecidableEq, Repr

/-- A leaf mesh of the loaded scene.  The setup effect assigns
userData.partName from the authored mesh name and caches the material
(FastSneakerCustomizer.tsx lines 212-236). -/
structure SceneNode where
  name : String
  userDataPartName : String
  material : Material
  deriving DecidableEq, Repr

/-- Setup of one mesh in the scene-initialisation effect:
mesh.userData.partName = mesh.name (the source writes mesh.name with a
fallback to the empty string, which is the identity on strings). -/
def setupNode (name : String) (mat : Material) : SceneNode :=
  { name := name, userDataPartName := name, material := mat }

/-- The JavaScript-whitespace test used by String.prototype.trim, for the
character forms that can occur in mesh names. -/
def isJsWhitespace (c : Char) : Bool :=
  c = ' ' || c = '\t' || c = '\n' || c = '\r' || c = '\x0b' || c = '\x0c'

/-- String.prototype.trim: strip leading and trailing whitespace. -/
def jsTrim (s : String) : String :=
  String.mk (((s.data.dropWhile isJsWhitespace).reverse.dropWhile isJsWhitespace).reverse)

/-- The part name read off a pointer event target:
e.object.userData?.partName || e.object.name  (falsy = empty string). -/
def eventPartName (node : SceneNode) : String :=
  if node.userDataPartName = "" then node.name else node.userDataPartName

/-- The interaction / panel state owned by FastSneakerCustomizer and its
parent: hoveredPart is local state, clickedPart / selectedPartForColor /
customizerOpen are lifted to the parent via setters. -/
structure UIState where
  hoveredPart : Option String
  clickedPart : Option String
  selectedPartForColor : Option String
  customizerOpen : Bool
  deriving DecidableEq, Repr

/-- handlePointerOver (FastSneakerCustomizer.tsx lines 304-311):
hover is set only when the part name is truthy, non-whitespace, and
different from the current hover. -/
def handlePointerOver (s : UIState) (node : SceneNode) : UIState :=
  let partName := eventPartName node
  if partName ≠ "" ∧ jsTrim partName ≠ "" ∧ s.hoveredPart ≠ some partName then
    { s with hoveredPart := some partName }
  else s

/-- handlePointerOut (FastSneakerCustomizer.tsx lines 314-320). -/
def handlePointerOut (s : UIState) : UIState :=
  if s.hoveredPart.isSome then { s with hoveredPart := none } else s

/-- handleClick (FastSneakerCustomizer.tsx lines 323-340): toggle-off when
the clicked part equals the current selection, otherwise select it; either
way the color panel state and hover are updated. -/
def handleClick (s : UIState) (node : SceneNode) : UIState :=
  let partName := eventPartName node
  if partName ≠ "" ∧ jsTrim partName ≠ "" then
    if s.clickedPart = some partName then
      { s with clickedPart := none, selectedPartForColor := none,
               customizerOpen := false, hoveredPart := none }
    else
      { s with clickedPart := some partName, selectedPartForColor := some partName,
               customizerOpen := true, hoveredPart := none }
  else s

/-- The part→color map handed down from the parent (a JavaScript record,
modelled as an association list; Object.keys order is irrelevant here). -/
abbrev PartColorMap := List (String × String)

/-- Lookup partColors[partName] (none = property absent / undefined). -/
def lookupColor : PartColorMap → String → Option String
  | [], _ => none
  | (k, v) :: rest, p => if k = p then some v else lookupColor rest p

/-- Remove a key from a part-color map (used to state that a stale key is
ignored: the pass behaves as if the key were absent). -/
def eraseKey (pc : PartColorMap) (k : String) : PartColorMap :=
  pc.filter (fun kv => kv.1 ≠ k)

/-- The inputs the material-sync effect reads: current hover / selection
state and the previous values held in refs (prevHoveredPart,
prevClickedPart). -/
structure InteractionSnapshot where
  hoveredPart : Option String
  clickedPart : Option String
  prevHoveredPart : Option String
  prevClickedPart : Option String
  deriving DecidableEq, Repr

/-- hoverChanged = hoveredPart !== prevHoveredPart.current. -/
def hoverChanged (st : InteractionSnapshot) : Bool :=
  decide (st.hoveredPart ≠ st.prevHoveredPart)

/-- clickChanged = clickedPart !== prevClickedPart.current. -/
def clickChanged (st : InteractionSnapshot) : Bool :=
  decide (st.clickedPart ≠ st.prevClickedPart)

/-- The early return of the sync effect:
if (!hoverChanged && !clickChanged && Object.keys(partColors).length === 0) return. -/
def syncSkipped (st : InteractionSnapshot) (pc : PartColorMap) : Bool :=
  !hoverChanged st && !clickChanged st && decide (pc = [])

/-- Membership in partsToUpdate (FastSneakerCustomizer.tsx lines 250-263):
current hover, current click, previous hover, previous click, and EVERY key
of the part-color map. -/
def dirtyPart (st : InteractionSnapshot) (pc : PartColorMap) (p : String) : Bool :=
  decide (st.hoveredPart = some p) || decide (st.clickedPart = some p) ||
    decide (st.prevHoveredPart = some p) || decide (st.prevClickedPart = some p) ||
    (lookupColor pc p).isSome

/-- Emissive intensity for a hovered part (0.4 in the source). -/
def hoverIntensity : ℚ := 2 / 5

/-- Emissive intensity for a clicked (selected) part (0.8 in the source). -/
def clickIntensity : ℚ := 4 / 5

/-- The emissive accent color used by the sync effect. -/
def accentColor : String := "#ff69b4"

/-- The material update applied to one dirty node
(FastSneakerCustomizer.tsx lines 272-294): set the base color when the
color map holds a truthy entry, then the emissive accent with the source
branch order if (isHovered) / else if (isClicked) / else. -/
def syncMaterial (st : InteractionSnapshot) (pc : PartColorMap) (partName : String)
    (mat : Material) : Material :=
  let mat1 :=
    match lookupColor pc partName with
    | some base => if base ≠ "" then { mat with color := base } else mat
    | none => mat
  if st.hoveredPart = some partName then
    { mat1 with emissive := accentColor, emissiveIntensity := hoverIntensity }
  else if st.clickedPart = some partName then
    { mat1 with emissive := accentColor, emissiveIntensity := clickIntensity }
  else
    { mat1 with emissive := "#000000", emissiveIntensity := 0 }

/-- One run of the material-sync effect over the scene: the early-return
guard, then one traversal updating exactly the nodes whose partName is in
partsToUpdate, then the ref updates prevHoveredPart/prevClickedPart. -/
def syncPass (st : InteractionSnapshot) (pc : PartColorMap) (scene : List SceneNode) :
    List SceneNode × InteractionSnapshot :=
  if syncSkipped st pc then (scene, st)
  else
    (scene.map fun node =>
        if dirtyPart st pc node.userDataPartName then
          { node with material := syncMaterial st pc node.userDataPartName node.material }
        else node,
      { st with prevHoveredPart := st.hoveredPart, prevClickedPart := st.clickedPart })

/-- The write log of one sync pass: the partName of every node whose
material fields are assigned during the traversal (every node passing the
partsToUpdate membership test is written: its emissive fields are assigned
unconditionally). -/
def syncWrites (st : InteractionSnapshot) (pc : PartColorMap) (scene : List SceneNode) :
    List String :=
  if syncSkipped st pc then []
  else (scene.filter fun node => dirtyPart st pc node.userDataPartName).map
    (fun node => node.userDataPartName)

/-- The component state relevant to a pointer-over step: UI state, the two
prev refs, and the scene. -/
structure ComponentState where
  ui : UIState
  prevHoveredPart : Option String
  prevClickedPart : Option String
  scene : List SceneNode
  deriving DecidableEq, Repr

/-- One pointer-over event followed by React re-rendering: the sync effect
runs again only when one of its dependencies (here only hoveredPart can
change) actually changed; otherwise no material work happens.  Returns the
new component state and the write log of the pass (empty when no pass
ran). -/
def pointerOverStep (cs : ComponentState) (node : SceneNode) (pc : PartColorMap) :
    ComponentState × List String :=
  let ui2 := handlePointerOver cs.ui node
  if ui2.hoveredPart = cs.ui.hoveredPart then
    ({ cs with ui := ui2 }, [])
  else
    let st : InteractionSnapshot :=
      { hoveredPart := ui2.hoveredPart, clickedPart := ui2.clickedPart,
        prevHoveredPart := cs.prevHoveredPart, prevClickedPart := cs.prevClickedPart }
    let r := syncPass st pc cs.scene
    ({ ui := ui2, prevHoveredPart := r.2.prevHoveredPart,
       prevClickedPart := r.2.prevClickedPart, scene := r.1 },
      syncWrites st pc cs.scene)

/-- A texture handle (a THREE texture object; identity is what matters). -/
structure Texture where
  id : ℕ
  deriving DecidableEq, Repr

/-- The material fields the DrawingTool reads and writes: the map slot and
the userData.originalMap cache (both nullable). -/
structure DrawMaterial where
  map : Option Texture
  userDataOriginalMap : Option Texture
  deriving DecidableEq, Repr

/-- A 2D point with JavaScript-number (rational) coordinates. -/
@[ext]
structure Point where
  x : ℚ
  y : ℚ
  deriving DecidableEq, Repr

/-- The texture-swap part of the DrawingTool initialisation effect
(DrawingTool.tsx lines 78-89): cache material.map in
userData.originalMap only when that cache is falsy, then install the
canvas texture in the map slot. -/
def initDrawSession (m : DrawMaterial) (canvasTexture : Texture) : DrawMaterial :=
  let m1 := if m.userDataOriginalMap = none then { m with userDataOriginalMap := m.map } else m
  { m1 with map := some canvasTexture }

/-- The effect cleanup that runs when drawing mode ends without commit
(DrawingTool.tsx lines 91-96): the map slot is restored only when the
cached userData.originalMap is truthy. -/
def cleanupDrawSession (m : DrawMaterial) : DrawMaterial :=
  match m.userDataOriginalMap with
  | some t => { m with map := some t }
  | none => m

/-- The drawing-session state: the targeted material, the sub-segments
stroked into the 512x512 canvas so far, the canvas path position
(the point of the last moveTo/lineTo), and the isDrawing / lastUV state. -/
structure DrawSession where
  material : DrawMaterial
  canvasStrokes : List (Point × Point)
  pathPos : Option Point
  isDrawing : Bool
  lastUV : Option Point
  deriving DecidableEq, Repr

/-- drawOnTexture (DrawingTool.tsx lines 118-157): with isStart it begins a
path at uv; otherwise it strokes a line from the current path position to
uv and re-begins the path there.  (lineTo on an empty path acts as a
moveTo, per the canvas specification.)  The material is never touched. -/
def drawOnTexture (ds : DrawSession) (uv : Point) (isStart : Bool) : DrawSession :=
  if isStart then { ds with pathPos := some uv }
  else
    match ds.pathPos with
    | some p => { ds with canvasStrokes := (p, uv) :: ds.canvasStrokes, pathPos := some uv }
    | none => { ds with pathPos := some uv }

/-- A fresh drawing session on a material: the initialisation effect has
swapped the canvas texture in; nothing is drawn yet. -/
def startSession (m : DrawMaterial) (canvasTexture : Texture) : DrawSession :=
  { material := initDrawSession m canvasTexture, canvasStrokes := [],
    pathPos := none, isDrawing := false, lastUV := none }

/-- Run a list of raw drawOnTexture calls (point, isStart) on a session. -/
def runDrawOps (ds : DrawSession) (ops : List (Point × Bool)) : DrawSession :=
  ops.foldl (fun s op => drawOnTexture s op.1 op.2) ds

/-- One ray intersection record as consumed by the DrawingTool handlers:
the hit object's userData.partName, its uv (nullable) and whether the
object has geometry. -/
structure Hit where
  partName : String
  uv : Option Point
  hasGeometry : Bool
  deriving DecidableEq, Repr

/-- getUVFromIntersection (DrawingTool.tsx lines 107-115): null when the
intersection has no uv or the object no geometry; otherwise the uv scaled
by 512 to canvas pixel coordinates. -/
def getUVFromIntersection (h : Hit) : Option Point :=
  match h.uv with
  | none => none
  | some uv => if h.hasGeometry then some { x := uv.x * 512, y := uv.y * 512 } else none

/-- JavaScript division producing a finite number: none models the NaN
produced by 0/0 (the only non-finite case reachable here). -/
def jsDivFin (a b : ℚ) : Option ℚ := if b = 0 then none else some (a / b)

/-- steps = Math.max(Math.abs(uv.x - lastUV.x), Math.abs(uv.y - lastUV.y))
(DrawingTool.tsx line 230), in canvas pixel units. -/
def stepsOf (lastUV uv : Point) : ℚ := max |uv.x - lastUV.x| |uv.y - lastUV.y|

/-- stepCount = Math.ceil(steps) (DrawingTool.tsx line 231); steps is
nonnegative so the value is a natural number. -/
def stepCountOf (lastUV uv : Point) : ℕ := (Int.ceil (stepsOf lastUV uv)).toNat

/-- THREE.Vector2.lerpVectors: a + (b - a) * t, componentwise. -/
def lerpPoint (a b : Point) (t : ℚ) : Point :=
  { x := a.x + (b.x - a.x) * t, y := a.y + (b.y - a.y) * t }

/-- The interpolated points produced by the pointer-move loop
(DrawingTool.tsx lines 233-237): for i = 0..stepCount the parameter
t = i / stepCount and the lerp of lastUV and uv at t; none marks a
non-finite (NaN) point, which happens exactly when stepCount = 0. -/
def interpPointsJs (lastUV uv : Point) : List (Option Point) :=
  (List.range (stepCountOf lastUV uv + 1)).map fun (i : ℕ) =>
    (jsDivFin ((i : ℕ) : ℚ) (stepCountOf lastUV uv : ℚ)).map (lerpPoint lastUV uv)

/-- The body of the interpolation loop over the index list r
(DrawingTool.tsx lines 233-237): for each i, t = i / n (none = NaN), the
lerp of last and uv at t, and a drawOnTexture path step; the canvas ignores
a lineTo whose coordinates are not finite. -/
def moveLoop (last uv : Point) (n : ℕ) (ds : DrawSession) (r : List ℕ) : DrawSession :=
  r.foldl
    (fun s (i : ℕ) =>
      match (jsDivFin ((i : ℕ) : ℚ) (n : ℚ)).map (lerpPoint last uv) with
      | some p => drawOnTexture s p false
      | none => s) ds

/-- The accepted-hit branch of handlePointerMove (DrawingTool.tsx lines
228-239): interpolate between lastUV and uv for i = 0..stepCount, draw each
interpolated point as a path step, then set lastUV := uv. -/
def processMoveHit (ds : DrawSession) (uv : Point) : DrawSession :=
  match ds.lastUV with
  | none => ds
  | some last =>
      let n := stepCountOf last uv
      { moveLoop last uv n ds (List.range (n + 1)) with lastUV := some uv }

/-- handlePointerDown of the DrawingTool (lines 160-203), hit-processing
part: take the FIRST intersection only; accept it only when its
userData.partName equals the part targeted for drawing; then start the
stroke at its (scaled) uv. -/
def handlePointerDownDraw (ds : DrawSession) (intersects : List Hit) (selectedPart : String) :
    DrawSession :=
  match intersects with
  | [] => ds
  | h :: _ =>
      if h.partName = selectedPart then
        match getUVFromIntersection h with
        | some uv => { drawOnTexture ds uv true with isDrawing := true, lastUV := some uv }
        | none => ds
      else ds

/-- handlePointerMove of the DrawingTool (lines 205-243), hit-processing
part: nothing happens unless isDrawing; take the FIRST intersection only;
accept it only when its partName equals the targeted part; then run the
interpolation loop. -/
def handlePointerMoveDraw (ds : DrawSession) (intersects : List Hit) (selectedPart : String) :
    DrawSession :=
  if ds.isDrawing then
    match intersects with
    | [] => ds
    | h :: _ =>
        if h.partName = selectedPart then
          match getUVFromIntersection h with
          | some uv => processMoveHit ds uv
          | none => ds
        else ds
  else ds

/-- Modelled from the spec: the dirty set claimed in sections 4.4 and 8.2 —
old and new hover, old and new selection, and the color-map keys whose
value changed since the previous pass.  The previous color map is a ghost
parameter: the source keeps no copy of the previous map, which is exactly
what the refutation of claim C1 turns on. -/
def specDirtySet (st : InteractionSnapshot) (pc prevPc : PartColorMap) (p : String) : Bool :=
  decide (st.hoveredPart = some p) || decide (st.clickedPart = some p) ||
    decide (st.prevHoveredPart = some p) || decide (st.prevClickedPart = some p) ||
    decide (lookupColor pc p ≠ lookupColor prevPc p)

/-! Concrete sample data for witnesses and counterexamples. -/

/-- A plain base material (one of the default part colors of the source). -/
def matA : Material := { color := "#f8bbd9", emissive := "#000000", emissiveIntensity := 0 }

/-- The scene node named vamp. -/
def vampNode : SceneNode := setupNode "vamp" matA

/-- The scene node named sole. -/
def soleNode : SceneNode := setupNode "sole" matA

/-- A node whose authored mesh name is a single space (whitespace-only). -/
def spaceNode : SceneNode := setupNode " " matA

/-- A two-part sample scene. -/
def sceneTwoParts : List SceneNode := [vampNode, soleNode]

/-- Snapshot of a pure hover transition: nothing hovered or clicked before,
sole hovered now. -/
def stHoverSole : InteractionSnapshot :=
  { hoveredPart := some "sole", clickedPart := none,
    prevHoveredPart := none, prevClickedPart := none }

/-- Snapshot in which vamp is both the current selection and the current
hover (reachable: click vamp, then move the pointer over it again). -/
def stBothVamp : InteractionSnapshot :=
  { hoveredPart := some "vamp", clickedPart := some "vamp",
    prevHoveredPart := none, prevClickedPart := none }

/-- A color map assigning red to vamp. -/
def pcVampRed : PartColorMap := [("vamp", "#ff0000")]

/-- A color map with a stale key (ghost matches no scene node). -/
def pcWithGhost : PartColorMap := [("ghost", "#123456"), ("vamp", "#ff0000")]

/-- UI state with vamp hovered and nothing selected. -/
def uiHoverVamp : UIState :=
  { hoveredPart := some "vamp", clickedPart := none,
    selectedPartForColor := none, customizerOpen := false }

/-- Component state with vamp hovered, in sync with its prev refs. -/
def csHoverVamp : ComponentState :=
  { ui := uiHoverVamp, prevHoveredPart := some "vamp", prevClickedPart := none,
    scene := sceneTwoParts }

/-- An original texture sitting in a material's map slot. -/
def origTex : Texture := { id := 1 }

/-- The canvas texture created by a drawing session. -/
def canvasTexW : Texture := { id := 100 }

/-- A material that has a texture in its map slot and no cached original. -/
def dmatWithTex : DrawMaterial := { map := some origTex, userDataOriginalMap := none }

/-- A material with an EMPTY map slot (no texture) and no cached original. -/
def dmatNoTex : DrawMaterial := { map := none, userDataOriginalMap := none }

/-- An active drawing session with the pen at the origin. -/
def dsDrawing : DrawSession :=
  { material := dmatWithTex, canvasStrokes := [], pathPos := some { x := 0, y := 0 },
    isDrawing := true, lastUV := some { x := 0, y := 0 } }

/-- A nearer hit on the lace part. -/
def hitLace : Hit := { partName := "lace", uv := some { x := 0, y := 0 }, hasGeometry := true }

/-- A farther hit on the vamp part (occluded by hitLace). -/
def hitVamp : Hit := { partName := "vamp", uv := some { x := 0, y := 0 }, hasGeometry := true }

/-- The first spec test point (0.1, 0.1) scaled to the 512x512 canvas. -/
def aSegW : Point := { x := 256 / 5, y := 256 / 5 }

/-- The second spec test point (0.9, 0.9) scaled to the 512x512 canvas. -/
def bSegW : Point := { x := 2304 / 5, y := 2304 / 5 }

/-- A drawing session whose last stroke point is aSegW. -/
def dsSegW : DrawSession :=
  { material := dmatWithTex, canvasStrokes := [], pathPos := some aSegW,
    isDrawing := true, lastUV := some aSegW }

/-- A point equal to itself across a pointer-move (coincident case). -/
def pSame : Point := { x := 10, y := 20 }

/-- Distinct sample points for the totality witness. -/
def pA10 : Point := { x := 0, y := 0 }

/-- Distinct sample points for the totality witness, second point. -/
def pB10 : Point := { x := 3, y := 4 }

/-! Theorems. -/

/-- Claim C5: clicking a part equal to the current selection clears the
selection and closes the dependent color panel (unset → X → unset);
clicking a part different from the current selection selects exactly that
part and clears hover; hence after clicking two different parts in
sequence exactly the second is selected. -/
theorem handleClick_toggle_and_switch (s : UIState) (nd nd2 : SceneNode)
    (h1 : eventPartName nd ≠ "") (h1t : jsTrim (eventPartName nd) ≠ "")
    (h2 : eventPartName nd2 ≠ "") (h2t : jsTrim (eventPartName nd2) ≠ "") :
    (s.clickedPart = some (eventPartName nd) →
      handleClick s nd =
        { s with clickedPart := none, selectedPartForColor := none,
                 customizerOpen := false, hoveredPart := none }) ∧
    (s.clickedPart ≠ some (eventPartName nd) →
      handleClick s nd =
        { s with clickedPart := some (eventPartName nd),
                 selectedPartForColor := some (eventPartName nd),
                 customizerOpen := true, hoveredPart := none }) ∧
    (eventPartName nd ≠ eventPartName nd2 →
      (handleClick (handleClick s nd) nd2).clickedPart = some (eventPartName nd2) ∧
        (handleClick (handleClick s nd) nd2).selectedPartForColor
          = some (eventPartName nd2) ∧
        (handleClick (handleClick s nd) nd2).hoveredPart = none) := by
  refine ⟨fun hsame => ?_, fun hdiff => ?_, fun hne => ?_⟩
  · simp [handleClick, h1, h1t, hsame]
  · simp [handleClick, h1, h1t, hdiff]
  · by_cases hsame : s.clickedPart = some (eventPartName nd) <;>
      simp [handleClick, h1, h1t, h2, h2t, hsame, hne, Ne.symm hne]

/-- Witness for C5: with sole selected, clicking vamp then sole leaves sole
selected, and clicking sole twice clears the selection. -/
theorem handleClick_toggle_and_switch_witness :
    (eventPartName vampNode ≠ "" ∧ jsTrim (eventPartName vampNode) ≠ "" ∧
        eventPartName soleNode ≠ "" ∧ jsTrim (eventPartName soleNode) ≠ "" ∧
        eventPartName vampNode ≠ eventPartName soleNode) ∧
      (handleClick (handleClick uiHoverVamp vampNode) soleNode).clickedPart
          = some (eventPartName soleNode) ∧
        (handleClick (handleClick uiHoverVamp vampNode) soleNode).selectedPartForColor
          = some (eventPartName soleNode) ∧
        (handleClick (handleClick uiHoverVamp vampNode) soleNode).hoveredPart = none :=
  ⟨⟨by decide, by decide, by decide, by decide, by decide⟩,
    (handleClick_toggle_and_switch uiHoverVamp vampNode soleNode
      (by decide) (by decide) (by decide) (by decide)).2.2 (by decide)⟩

/-- Claim C6: a pointer-over on the part that is already hovered is a
complete no-op — the component state is unchanged and the write log of the
pass is empty (no material is written). -/
theorem pointerOver_same_part_noop (cs : ComponentState) (node : SceneNode)
    (pc : PartColorMap) (h : cs.ui.hoveredPart = some (eventPartName node)) :
    pointerOverStep cs node pc = (cs, []) := by
  have hui : handlePointerOver cs.ui node = cs.ui := by
    unfold handlePointerOver
    simp [h]
  unfold pointerOverStep
  simp [hui]

/-- Witness for C6: hovering vamp while vamp is already hovered changes
nothing and writes no material. -/
theorem pointerOver_same_part_noop_witness :
    csHoverVamp.ui.hoveredPart = some (eventPartName vampNode) ∧
      pointerOverStep csHoverVamp vampNode pcVampRed = (csHoverVamp, []) :=
  ⟨by decide, pointerOver_same_part_noop csHoverVamp vampNode pcVampRed (by decide)⟩

/-- Claim C7: in draw mode only the FIRST (nearest) ray intersection is
considered, and it registers only when its node is the targeted part: when
the nearest hit belongs to a different part the pointer-down and
pointer-move are silently dropped, even when a farther hit does belong to
the targeted part (occlusion). -/
theorem draw_requires_nearest_hit_match (ds : DrawSession) (h : Hit) (rest : List Hit)
    (sel : String) (hne : h.partName ≠ sel) :
    handlePointerDownDraw ds (h :: rest) sel = ds ∧
      handlePointerMoveDraw ds (h :: rest) sel = ds := by
  constructor
  · unfold handlePointerDownDraw
    simp [hne]
  · unfold handlePointerMoveDraw
    split <;> simp [hne]

/-- Witness for C7: the targeted vamp part is occluded by a nearer lace
hit; neither pointer-down nor pointer-move registers any drawing. -/
theorem draw_requires_nearest_hit_match_witness :
    hitLace.partName ≠ "vamp" ∧
      handlePointerDownDraw dsDrawing [hitLace, hitVamp] "vamp" = dsDrawing ∧
      handlePointerMoveDraw dsDrawing [hitLace, hitVamp] "vamp" = dsDrawing :=
  ⟨by decide, draw_requires_nearest_hit_match dsDrawing hitLace [hitVamp] "vamp" (by decide)⟩

/-- Claim C8: a node whose partId is empty or whitespace-only never
participates in interaction: pointer-over and click on it leave the whole
interaction state (hover, selection, panel) unchanged. -/
theorem whitespace_part_never_interactive (s : UIState) (node : SceneNode)
    (h : jsTrim (eventPartName node) = "") :
    handlePointerOver s node = s ∧ handleClick s node = s := by
  constructor
  · unfold handlePointerOver
    simp [h]
  · unfold handleClick
    simp [h]

/-- Witness for C8: a node authored with a single-space name is inert for
both hover and click. -/
theorem whitespace_part_never_interactive_witness :
    jsTrim (eventPartName spaceNode) = "" ∧
      handlePointerOver uiHoverVamp spaceNode = uiHoverVamp ∧
      handleClick uiHoverVamp spaceNode = uiHoverVamp :=
  ⟨by decide, whitespace_part_never_interactive uiHoverVamp spaceNode (by decide)⟩

/-- partsToUpdate membership unfolded to its five disjuncts. -/
theorem dirtyPart_iff (st : InteractionSnapshot) (pc : PartColorMap) (p : String) :
    dirtyPart st pc p = true ↔
      (st.hoveredPart = some p ∨ st.clickedPart = some p ∨
        st.prevHoveredPart = some p ∨ st.prevClickedPart = some p ∨
        ∃ c, lookupColor pc p = some c) := by
  simp [dirtyPart, Option.isSome_iff_exists, or_assoc]

/-- Counterexample to claim C1 as stated: in a pass triggered purely by a
hover transition (none → sole), with a color map whose single entry is
unchanged since the previous pass, the vamp node IS written even though it
is not in the claimed set {old hover, new hover, old selection,
new selection} ∪ {changed color-map keys}. -/
theorem unchangedColorKey_is_written :
    hoverChanged stHoverSole = true ∧
      specDirtySet stHoverSole pcVampRed pcVampRed "vamp" = false ∧
      "vamp" ∈ syncWrites stHoverSole pcVampRed sceneTwoParts := by
  decide

/-- Claim C1 (amended): when the sync pass is not skipped by its early
return, the set of nodes written is exactly those whose partName is the
current hover, the current selection, the previous hover, the previous
selection, or ANY key of the part-color map (the source adds every key,
not only the changed ones); every node outside that set is returned
untouched. -/
theorem syncPass_touches_exactly_dirtySet (st : InteractionSnapshot) (pc : PartColorMap)
    (scene : List SceneNode) (hrun : syncSkipped st pc = false) :
    (∀ p : String,
      p ∈ syncWrites st pc scene ↔
        ((∃ node ∈ scene, node.userDataPartName = p) ∧
          (st.hoveredPart = some p ∨ st.clickedPart = some p ∨
            st.prevHoveredPart = some p ∨ st.prevClickedPart = some p ∨
            ∃ c, lookupColor pc p = some c))) ∧
    List.Forall₂ (fun n m =>
      ((st.hoveredPart = some n.userDataPartName ∨ st.clickedPart = some n.userDataPartName ∨
          st.prevHoveredPart = some n.userDataPartName ∨
          st.prevClickedPart = some n.userDataPartName ∨
          ∃ c, lookupColor pc n.userDataPartName = some c) →
        m = { n with material := syncMaterial st pc n.userDataPartName n.material }) ∧
      (¬ (st.hoveredPart = some n.userDataPartName ∨ st.clickedPart = some n.userDataPartName ∨
          st.prevHoveredPart = some n.userDataPartName ∨
          st.prevClickedPart = some n.userDataPartName ∨
          ∃ c, lookupColor pc n.userDataPartName = some c) →
        m = n))
      scene (syncPass st pc scene).1 := by
  constructor
  · intro p
    rw [← dirtyPart_iff]
    simp only [syncWrites, hrun, Bool.false_eq_true, if_false, List.mem_map, List.mem_filter]
    constructor
    · rintro ⟨node, ⟨hmem, hd⟩, hname⟩
      exact ⟨⟨node, hmem, hname⟩, hname ▸ hd⟩
    · rintro ⟨⟨node, hmem, hname⟩, hd⟩
      exact ⟨node, ⟨hmem, hname ▸ hd⟩, hname⟩
  · have hmap : (syncPass st pc scene).1 = scene.map (fun node =>
        if dirtyPart st pc node.userDataPartName then
          { node with material := syncMaterial st pc node.userDataPartName node.material }
        else node) := by
      simp [syncPass, hrun]
    rw [hmap, List.forall₂_map_right_iff, List.forall₂_same]
    intro n _
    by_cases hd : dirtyPart st pc n.userDataPartName = true
    · rw [dirtyPart_iff] at hd
      exact ⟨fun _ => by rw [if_pos (by rwa [dirtyPart_iff])], fun hcon => absurd hd hcon⟩
    · refine ⟨fun hcon => absurd ((dirtyPart_iff st pc n.userDataPartName).mpr hcon) hd, ?_⟩
      intro _
      rw [if_neg (by rwa [dirtyPart_iff])]

/-- Witness for the amended C1 at a concrete hover-transition pass. -/
theorem syncPass_touches_exactly_dirtySet_witness :
    syncSkipped stHoverSole pcVampRed = false ∧
      ((∀ p : String,
        p ∈ syncWrites stHoverSole pcVampRed sceneTwoParts ↔
          ((∃ node ∈ sceneTwoParts, node.userDataPartName = p) ∧
            (stHoverSole.hoveredPart = some p ∨ stHoverSole.clickedPart = some p ∨
              stHoverSole.prevHoveredPart = some p ∨ stHoverSole.prevClickedPart = some p ∨
              ∃ c, lookupColor pcVampRed p = some c))) ∧
      List.Forall₂ (fun n m =>
        ((stHoverSole.hoveredPart = some n.userDataPartName ∨
            stHoverSole.clickedPart = some n.userDataPartName ∨
            stHoverSole.prevHoveredPart = some n.userDataPartName ∨
            stHoverSole.prevClickedPart = some n.userDataPartName ∨
            ∃ c, lookupColor pcVampRed n.userDataPartName = some c) →
          m = { n with material :=
                  syncMaterial stHoverSole pcVampRed n.userDataPartName n.material }) ∧
        (¬ (stHoverSole.hoveredPart = some n.userDataPartName ∨
            stHoverSole.clickedPart = some n.userDataPartName ∨
            stHoverSole.prevHoveredPart = some n.userDataPartName ∨
            stHoverSole.prevClickedPart = some n.userDataPartName ∨
            ∃ c, lookupColor pcVampRed n.userDataPartName = some c) →
          m = n))
        sceneTwoParts (syncPass stHoverSole pcVampRed sceneTwoParts).1) :=
  ⟨by decide, syncPass_touches_exactly_dirtySet stHoverSole pcVampRed sceneTwoParts (by decide)⟩

/-- Counterexample to claim C2 as stated: with vamp both the current
selection and the current hover, the sync branch order gives it the weaker
hover intensity 0.4, not the strong selection intensity 0.8 the claim
requires for a selected part (even if it is also hovered). -/
theorem selectedAndHovered_gets_hover_intensity :
    stBothVamp.clickedPart = some "vamp" ∧ stBothVamp.hoveredPart = some "vamp" ∧
      (syncMaterial stBothVamp [] "vamp" matA).emissiveIntensity = hoverIntensity ∧
      hoverIntensity ≠ clickIntensity := by
  refine ⟨rfl, rfl, rfl, ?_⟩
  norm_num [hoverIntensity, clickIntensity]

/-- Claim C2 (amended): the emissive precedence actually implemented is
hovered > selected > neutral — a hovered part gets the weaker accent
(0.4) even when it is also the selection, a selected part that is not
hovered gets the strong accent (0.8), and a part that is neither gets
zero emissive. -/
theorem syncMaterial_precedence_hover_over_selected
    (st : InteractionSnapshot) (pc : PartColorMap) (p : String) (mat : Material) :
    (st.hoveredPart = some p →
      (syncMaterial st pc p mat).emissive = accentColor ∧
        (syncMaterial st pc p mat).emissiveIntensity = hoverIntensity) ∧
    (st.hoveredPart ≠ some p → st.clickedPart = some p →
      (syncMaterial st pc p mat).emissive = accentColor ∧
        (syncMaterial st pc p mat).emissiveIntensity = clickIntensity) ∧
    (st.hoveredPart ≠ some p → st.clickedPart ≠ some p →
      (syncMaterial st pc p mat).emissive = "#000000" ∧
        (syncMaterial st pc p mat).emissiveIntensity = 0) := by
  refine ⟨fun h => by simp [syncMaterial, h],
    fun h1 h2 => by simp [syncMaterial, h1, h2],
    fun h1 h2 => by simp [syncMaterial, h1, h2]⟩

/-- Witness for the amended C2: vamp selected-and-hovered gets the hover
accent, sole selected-but-not-hovered would get the strong accent. -/
theorem syncMaterial_precedence_hover_over_selected_witness :
    stBothVamp.hoveredPart = some "vamp" ∧
      (syncMaterial stBothVamp [] "vamp" matA).emissive = accentColor ∧
      (syncMaterial stBothVamp [] "vamp" matA).emissiveIntensity = hoverIntensity :=
  ⟨rfl, (syncMaterial_precedence_hover_over_selected stBothVamp [] "vamp" matA).1 rfl⟩

/-- Removing a key from a part-color map does not change lookups of other
keys. -/
theorem lookupColor_eraseKey (k p : String) (h : p ≠ k) :
    ∀ pc : PartColorMap, lookupColor (eraseKey pc k) p = lookupColor pc p := by
  intro pc
  induction pc with
  | nil => rfl
  | cons kv rest ih =>
      obtain ⟨k1, v1⟩ := kv
      simp only [eraseKey, decide_not] at ih ⊢
      rw [List.filter_cons]
      by_cases hk1 : k1 = k
      · have hne : ¬ (k1 = p) := fun hh => h (hh ▸ hk1)
        simp [hk1, lookupColor, Ne.symm h, hne, ih]
      · by_cases hp1 : k1 = p <;> simp [hk1, hp1, h, lookupColor, ih]

/-- Claim C9: a color-map key matching no scene node is silently ignored —
in any pass that does run (an interaction transition, or a color map with
at least one other entry), the resulting scene, the updated refs and the
write log are identical to those of the same pass with the stale key
removed.  No error is possible: the pass is a total function. -/
theorem stale_color_key_ignored (st : InteractionSnapshot) (pc : PartColorMap)
    (scene : List SceneNode) (k : String)
    (hk : ∀ node ∈ scene, node.userDataPartName ≠ k)
    (hrun : hoverChanged st = true ∨ clickChanged st = true ∨ eraseKey pc k ≠ []) :
    syncPass st pc scene = syncPass st (eraseKey pc k) scene ∧
      syncWrites st pc scene = syncWrites st (eraseKey pc k) scene := by
  have hpcne : eraseKey pc k ≠ [] → pc ≠ [] := by
    intro he hnil
    subst hnil
    exact he rfl
  have hskip1 : syncSkipped st pc = false := by
    rcases hrun with h | h | h
    · simp [syncSkipped, h]
    · simp [syncSkipped, h]
    · simp [syncSkipped, hpcne h]
  have hskip2 : syncSkipped st (eraseKey pc k) = false := by
    rcases hrun with h | h | h
    · simp [syncSkipped, h]
    · simp [syncSkipped, h]
    · simp [syncSkipped, h]
  have hdirty : ∀ node ∈ scene,
      dirtyPart st (eraseKey pc k) node.userDataPartName
        = dirtyPart st pc node.userDataPartName := by
    intro node hmem
    simp [dirtyPart, lookupColor_eraseKey k node.userDataPartName (hk node hmem)]
  have hmat : ∀ node ∈ scene,
      syncMaterial st (eraseKey pc k) node.userDataPartName node.material
        = syncMaterial st pc node.userDataPartName node.material := by
    intro node hmem
    simp [syncMaterial, lookupColor_eraseKey k node.userDataPartName (hk node hmem)]
  constructor
  · simp only [syncPass, hskip1, hskip2, Bool.false_eq_true, if_false]
    refine Prod.ext ?_ rfl
    exact (List.map_congr_left fun node hmem => by rw [hdirty node hmem, hmat node hmem]).symm
  · simp only [syncWrites, hskip1, hskip2, Bool.false_eq_true, if_false]
    rw [List.filter_congr fun node hmem => (hdirty node hmem)]

/-- Witness for C9: the ghost key of pcWithGhost matches no node of the
two-part scene, and the pass is bit-for-bit the same without it. -/
theorem stale_color_key_ignored_witness :
    ((∀ node ∈ sceneTwoParts, node.userDataPartName ≠ "ghost") ∧
        hoverChanged stHoverSole = true) ∧
      syncPass stHoverSole pcWithGhost sceneTwoParts
          = syncPass stHoverSole (eraseKey pcWithGhost "ghost") sceneTwoParts ∧
        syncWrites stHoverSole pcWithGhost sceneTwoParts
          = syncWrites stHoverSole (eraseKey pcWithGhost "ghost") sceneTwoParts :=
  ⟨⟨by decide, by decide⟩,
    stale_color_key_ignored stHoverSole pcWithGhost sceneTwoParts "ghost"
      (by decide) (Or.inl (by decide))⟩

/-- drawOnTexture draws into the canvas only; the material is untouched. -/
theorem drawOnTexture_material (ds : DrawSession) (uv : Point) (b : Bool) :
    (drawOnTexture ds uv b).material = ds.material := by
  unfold drawOnTexture
  cases b
  · cases hp : ds.pathPos <;> simp [hp]
  · simp

/-- Any sequence of drawOnTexture calls leaves the material untouched. -/
theorem runDrawOps_material (ops : List (Point × Bool)) (ds : DrawSession) :
    (runDrawOps ds ops).material = ds.material := by
  induction ops generalizing ds with
  | nil => rfl
  | cons op rest ih =>
      simp only [runDrawOps, List.foldl_cons] at ih ⊢
      rw [ih, drawOnTexture_material]

/-- Counterexample to claim C3 as stated: on a material whose texture slot
is initially EMPTY (T0 = none), a session that is begun and then abandoned
without commit leaves the canvas texture installed — the falsy-cache guard
never stores the null original and the cleanup guard then refuses to
restore, so the slot does not again hold T0. -/
theorem cancel_without_original_texture_keeps_canvas :
    dmatNoTex.map = none ∧
      (cleanupDrawSession (runDrawOps (startSession dmatNoTex canvasTexW) []).material).map
        = some canvasTexW := by
  exact ⟨rfl, rfl⟩

/-- Claim C3 (amended): whenever the targeted material's texture slot
initially holds an actual texture T0 (and its originalMap cache is either
empty or already caches that same T0), a drawing session — beginStroke and
any number of continueStroke path operations — that ends without commit
restores the slot to exactly T0. -/
theorem cancel_restores_original_texture (m : DrawMaterial) (t0 canvasTexture : Texture)
    (ops : List (Point × Bool)) (hmap : m.map = some t0)
    (horig : m.userDataOriginalMap = none ∨ m.userDataOriginalMap = some t0) :
    (cleanupDrawSession (runDrawOps (startSession m canvasTexture) ops).material).map
      = some t0 := by
  rw [runDrawOps_material]
  rcases horig with h | h <;>
    simp [startSession, initDrawSession, cleanupDrawSession, h, hmap]

/-- Witness for the amended C3: a material with texture origTex, one
beginStroke and one continueStroke, abandoned without commit, ends with
origTex back in the slot. -/
theorem cancel_restores_original_texture_witness :
    (dmatWithTex.map = some origTex ∧ dmatWithTex.userDataOriginalMap = none) ∧
      (cleanupDrawSession (runDrawOps (startSession dmatWithTex canvasTexW)
          [({ x := 0, y := 0 }, true), ({ x := 3, y := 4 }, false)]).material).map
        = some origTex :=
  ⟨⟨rfl, rfl⟩,
    cancel_restores_original_texture dmatWithTex origTex canvasTexW
      [({ x := 0, y := 0 }, true), ({ x := 3, y := 4 }, false)] rfl (Or.inl rfl)⟩

/-- jsDivFin is an ordinary division whenever the divisor is nonzero. -/
theorem jsDivFin_of_ne (a b : ℚ) (hb : b ≠ 0) : jsDivFin a b = some (a / b) := by
  simp [jsDivFin, hb]

/-- lerp of two lerps along the same segment is a lerp along the segment. -/
theorem lerpPoint_lerpPoint (a b : Point) (s1 s2 u : ℚ) :
    lerpPoint (lerpPoint a b s1) (lerpPoint a b s2) u
      = lerpPoint a b (s1 + (s2 - s1) * u) := by
  simp only [lerpPoint, Point.mk.injEq]
  constructor <;> ring

/-- steps is nonnegative. -/
theorem stepsOf_nonneg (a b : Point) : 0 ≤ stepsOf a b :=
  le_max_of_le_left (abs_nonneg _)

/-- stepCount is at least 1 whenever the two points differ. -/
theorem stepCountOf_pos (a b : Point) (h : a ≠ b) : 1 ≤ stepCountOf a b := by
  have hab : ¬ (a.x = b.x ∧ a.y = b.y) := by
    intro hh
    exact h (Point.ext hh.1 hh.2)
  have hpos : 0 < stepsOf a b := by
    rcases not_and_or.mp hab with hx | hy
    · exact lt_max_of_lt_left (abs_pos.mpr (sub_ne_zero.mpr fun he => hx he.symm))
    · exact lt_max_of_lt_right (abs_pos.mpr (sub_ne_zero.mpr fun he => hy he.symm))
  have hc : 0 < Int.ceil (stepsOf a b) := Int.ceil_pos.mpr hpos
  unfold stepCountOf
  omega

/-- stepCount = ceil(steps): steps ≤ stepCount < steps + 1. -/
theorem stepCountOf_approx (a b : Point) :
    stepsOf a b ≤ (stepCountOf a b : ℚ) ∧ (stepCountOf a b : ℚ) < stepsOf a b + 1 := by
  have hcnn : (0:ℤ) ≤ Int.ceil (stepsOf a b) := Int.ceil_nonneg (stepsOf_nonneg a b)
  have hcast : ((stepCountOf a b : ℕ) : ℚ) = ((Int.ceil (stepsOf a b) : ℤ) : ℚ) := by
    unfold stepCountOf
    exact_mod_cast Int.toNat_of_nonneg hcnn
  constructor
  · rw [hcast]
    exact Int.le_ceil _
  · rw [hcast]
    exact Int.ceil_lt_add_one _

/-- A non-start drawOnTexture call on a session whose path position is p:
stroke the sub-segment (p, q) and move the path to q. -/
theorem drawOnTexture_step (ds : DrawSession) (p q : Point) (h : ds.pathPos = some p) :
    drawOnTexture ds q false
      = { ds with canvasStrokes := (p, q) :: ds.canvasStrokes, pathPos := some q } := by
  simp [drawOnTexture, h]

/-- Unrolling the interpolation loop by one appended index. -/
theorem moveLoop_append_single (last uv : Point) (n : ℕ) (ds : DrawSession)
    (l : List ℕ) (j : ℕ) :
    moveLoop last uv n ds (l ++ [j])
      = match (jsDivFin ((j : ℕ) : ℚ) (n : ℚ)).map (lerpPoint last uv) with
        | some p => drawOnTexture (moveLoop last uv n ds l) p false
        | none => moveLoop last uv n ds l := by
  rw [moveLoop, List.foldl_append]
  rfl

/-- Unrolling the interpolation loop by its last index, in the form the
nonzero step count gives it. -/
theorem moveLoop_range_succ_ne (last uv : Point) (n : ℕ) (hn : (n : ℚ) ≠ 0)
    (ds : DrawSession) (j : ℕ) :
    moveLoop last uv n ds (List.range (j + 1))
      = drawOnTexture (moveLoop last uv n ds (List.range j))
          (lerpPoint last uv ((j : ℚ) / (n : ℚ))) false := by
  rw [List.range_succ, moveLoop_append_single, jsDivFin_of_ne _ _ hn]
  rfl

/-- Invariant of the interpolation loop: after processing indices 0..j the
canvas path sits at the j-th interpolated point, and every sub-segment
between consecutive interpolated points below j has been stroked. -/
theorem moveLoop_invariant (last uv : Point) (n : ℕ) (hn : n ≠ 0) (ds : DrawSession)
    (hpath : ds.pathPos = some last) :
    ∀ j : ℕ, j ≤ n →
      (moveLoop last uv n ds (List.range (j + 1))).pathPos
          = some (lerpPoint last uv ((j : ℚ) / (n : ℚ))) ∧
        ∀ i : ℕ, i < j →
          (lerpPoint last uv ((i : ℚ) / (n : ℚ)),
              lerpPoint last uv (((i : ℚ) + 1) / (n : ℚ)))
            ∈ (moveLoop last uv n ds (List.range (j + 1))).canvasStrokes := by
  have hnq : (n : ℚ) ≠ 0 := Nat.cast_ne_zero.mpr hn
  intro j
  induction j with
  | zero =>
      intro _
      rw [moveLoop_range_succ_ne last uv n hnq ds 0]
      have h0 : moveLoop last uv n ds (List.range 0) = ds := rfl
      rw [h0, drawOnTexture_step ds last _ hpath]
      exact ⟨rfl, fun i hi => absurd hi (Nat.not_lt_zero i)⟩
  | succ j ih =>
      intro hj1
      obtain ⟨ihp, ihm⟩ := ih (Nat.le_of_succ_le hj1)
      rw [moveLoop_range_succ_ne last uv n hnq ds (j + 1),
        drawOnTexture_step _ _ _ ihp]
      constructor
      · rfl
      · intro i hi
        simp only [List.mem_cons]
        rcases Nat.lt_succ_iff_lt_or_eq.mp hi with hlt | heq
        · exact Or.inr (ihm i hlt)
        · subst heq
          left
          have hc : ((i : ℚ) + 1) = ((i + 1 : ℕ) : ℚ) := by push_cast; ring
          rw [hc]

/-- Every t in the unit interval falls in the i-th of n equal steps. -/
theorem unit_interval_decomp (t : ℚ) (ht0 : 0 ≤ t) (ht1 : t ≤ 1) (n : ℕ) (hn : 1 ≤ n) :
    ∃ i : ℕ, i < n ∧ ∃ u : ℚ, 0 ≤ u ∧ u ≤ 1 ∧ t = ((i : ℚ) + u) / (n : ℚ) := by
  have hnpos : 0 < n := hn
  have hn0 : (0:ℚ) < (n : ℚ) := by exact_mod_cast hnpos
  by_cases h1 : t = 1
  · subst h1
    refine ⟨n - 1, by omega, 1, by norm_num, le_refl 1, ?_⟩
    rw [Nat.cast_sub hn]
    push_cast
    field_simp
  · have htlt : t < 1 := lt_of_le_of_ne ht1 h1
    have hm0 : (0:ℤ) ≤ ⌊t * (n : ℚ)⌋ := Int.floor_nonneg.mpr (mul_nonneg ht0 hn0.le)
    have hmlt : ⌊t * (n : ℚ)⌋ < (n : ℤ) := by
      rw [Int.floor_lt]
      push_cast
      nlinarith
    refine ⟨(⌊t * (n : ℚ)⌋).toNat, by omega,
      t * (n : ℚ) - ((⌊t * (n : ℚ)⌋ : ℤ) : ℚ), ?_, ?_, ?_⟩
    · have hfl := Int.floor_le (t * (n : ℚ))
      linarith
    · have hlt := Int.lt_floor_add_one (t * (n : ℚ))
      linarith
    · have hc : (((⌊t * (n : ℚ)⌋).toNat : ℕ) : ℚ) = ((⌊t * (n : ℚ)⌋ : ℤ) : ℚ) := by
        exact_mod_cast Int.toNat_of_nonneg hm0
      rw [hc]
      field_simp

/-- Claim C4: a pointer-move step from the previous UV point a to the
current UV point b (both already in 512x512 buffer pixels) uses a step
count that is the ceiling of max(|dx|,|dy|) — so steps ≤ stepCount <
steps + 1 — and strokes sub-segments between consecutive interpolated
points that COVER the whole straight path: every point of the segment lies
on a stroked sub-segment, so no unpainted gap of any size (in particular
none larger than the brush radius) remains along the path. -/
theorem stroke_interpolation_covers_segment (ds : DrawSession) (a b : Point)
    (hlast : ds.lastUV = some a) (hpath : ds.pathPos = some a) (hab : a ≠ b)
    (t : ℚ) (ht0 : 0 ≤ t) (ht1 : t ≤ 1) :
    (stepsOf a b ≤ (stepCountOf a b : ℚ) ∧ (stepCountOf a b : ℚ) < stepsOf a b + 1) ∧
      ∃ seg ∈ (processMoveHit ds b).canvasStrokes, ∃ u : ℚ, 0 ≤ u ∧ u ≤ 1 ∧
        lerpPoint a b t = lerpPoint seg.1 seg.2 u := by
  refine ⟨stepCountOf_approx a b, ?_⟩
  have hn1 : 1 ≤ stepCountOf a b := stepCountOf_pos a b hab
  have hn : stepCountOf a b ≠ 0 := by omega
  have hnq : ((stepCountOf a b : ℕ) : ℚ) ≠ 0 := Nat.cast_ne_zero.mpr hn
  obtain ⟨i, hi, u, hu0, hu1, ht⟩ := unit_interval_decomp t ht0 ht1 _ hn1
  obtain ⟨-, hmem⟩ := moveLoop_invariant a b (stepCountOf a b) hn ds hpath
    (stepCountOf a b) le_rfl
  have hseg := hmem i hi
  have hpm : (processMoveHit ds b).canvasStrokes
      = (moveLoop a b (stepCountOf a b) ds
          (List.range (stepCountOf a b + 1))).canvasStrokes := by
    simp [processMoveHit, hlast]
  refine ⟨(lerpPoint a b ((i : ℚ) / (stepCountOf a b : ℚ)),
      lerpPoint a b (((i : ℚ) + 1) / (stepCountOf a b : ℚ))), ?_, u, hu0, hu1, ?_⟩
  · rw [hpm]
    exact hseg
  · rw [lerpPoint_lerpPoint]
    have harg : (i : ℚ) / (stepCountOf a b : ℚ)
        + (((i : ℚ) + 1) / (stepCountOf a b : ℚ) - (i : ℚ) / (stepCountOf a b : ℚ)) * u
        = t := by
      rw [ht]
      field_simp
    rw [harg]

/-- Witness for C4 at the spec test input: UV (0.1, 0.1) to (0.9, 0.9)
scaled to the 512x512 buffer, sampled at the midpoint of the path. -/
theorem stroke_interpolation_covers_segment_witness :
    (dsSegW.lastUV = some aSegW ∧ dsSegW.pathPos = some aSegW ∧ aSegW ≠ bSegW ∧
        (0:ℚ) ≤ 1 / 2 ∧ (1 / 2 : ℚ) ≤ 1) ∧
      ((stepsOf aSegW bSegW ≤ (stepCountOf aSegW bSegW : ℚ) ∧
          (stepCountOf aSegW bSegW : ℚ) < stepsOf aSegW bSegW + 1) ∧
        ∃ seg ∈ (processMoveHit dsSegW bSegW).canvasStrokes, ∃ u : ℚ, 0 ≤ u ∧ u ≤ 1 ∧
          lerpPoint aSegW bSegW (1 / 2) = lerpPoint seg.1 seg.2 u) := by
  have hne : aSegW ≠ bSegW := by
    intro he
    rw [Point.ext_iff] at he
    norm_num [aSegW, bSegW] at he
  exact ⟨⟨rfl, rfl, hne, by norm_num, by norm_num⟩,
    stroke_interpolation_covers_segment dsSegW aSegW bSegW rfl rfl hne (1 / 2)
      (by norm_num) (by norm_num)⟩

/-- Counterexample to claim C10 as stated: when the previous and current
point coincide, steps = 0, so the loop divisor stepCount is ZERO and the
single loop iteration computes t = 0/0 — not a finite number (NaN in the
source; none here) — which is then passed into the lerp. -/
theorem stepCount_zero_on_coincident_points :
    stepCountOf pSame pSame = 0 ∧ interpPointsJs pSame pSame = [none] := by
  have h1 : stepsOf pSame pSame = 0 := by
    simp [stepsOf]
  have h2 : stepCountOf pSame pSame = 0 := by
    unfold stepCountOf
    rw [h1]
    simp
  refine ⟨h2, ?_⟩
  simp [interpPointsJs, h2, jsDivFin]

/-- Claim C10 (amended): for every pointer-move step whose previous and
current points DIFFER, the loop divisor stepCount is nonzero and every
interpolation parameter and interpolated point is a finite number. -/
theorem interpolation_total_on_distinct_points (a b : Point) (h : a ≠ b) :
    1 ≤ stepCountOf a b ∧
      ∀ op ∈ interpPointsJs a b, ∃ p : Point, op = some p := by
  refine ⟨stepCountOf_pos a b h, ?_⟩
  intro op hop
  have hn1 := stepCountOf_pos a b h
  have hnq : ((stepCountOf a b : ℕ) : ℚ) ≠ 0 := Nat.cast_ne_zero.mpr (by omega)
  simp only [interpPointsJs, List.mem_map, List.mem_range] at hop
  obtain ⟨i, _, hval⟩ := hop
  rw [← hval, jsDivFin_of_ne _ _ hnq]
  exact ⟨_, rfl⟩

/-- Witness for the amended C10 on two distinct concrete points. -/
theorem interpolation_total_on_distinct_points_witness :
    pA10 ≠ pB10 ∧ 1 ≤ stepCountOf pA10 pB10 ∧
      ∀ op ∈ interpPointsJs pA10 pB10, ∃ p : Point, op = some p := by
  have hne : pA10 ≠ pB10 := by
    intro he
    rw [Point.ext_iff] at he
    norm_num [pA10, pB10] at he
  exact ⟨hne, interpolation_total_on_distinct_points pA10 pB10 hne⟩

end Sneaker
